import Mathlib

/-!
Verification of the creative_boost repository's generation pipeline and
composition engine against its natural-language specification.

The TypeScript sources are shallowly embedded:

* JavaScript numbers that only ever hold integers are `Nat`; the few
  floating-point constants (`0.6`, `0.8`, `1.4`, `0.299`, …) are rendered in
  exact rational arithmetic by scaling (e.g. `fontSize * 0.6` becomes
  `fontSize * 6 / 10` under the floor that always follows it in the source).
* Node `Buffer`s are an abstract type parameter `β`: the pipeline never
  inspects image bytes, it only passes them between provider calls.
* `async` calls that can reject are functions into `Except String _`; the
  `try`/`catch` blocks of `pipeline.ts` become `match`es on those results.
* Wall-clock reads (`Date.now()`, `toISOString()`) and the ambient
  environment variable `USE_AI_TEXT_RENDERING` are explicit fields of a
  `PipelineEnv` record, so one run is a pure function of its inputs.
* JavaScript strings are Lean `String`s; where character-by-character
  behaviour matters (splitting, wrapping, sanitising) we work on `.data`,
  the underlying `List Char`.
-/

namespace CreativeBoost

/-- Aspect-ratio configuration entry (`types.ts`, `AspectRatio`). -/
structure AspectRatio where
  width : Nat
  height : Nat
  label : String
deriving DecidableEq

/-- The configured fixed list of output shapes (`types.ts`, `ASPECT_RATIOS`). -/
def ASPECT_RATIOS : List AspectRatio :=
  [⟨1080, 1080, "1:1"⟩, ⟨1080, 1920, "9:16"⟩, ⟨1920, 1080, "16:9"⟩]

/-! ## Composition engine: `image-utils.ts` -/

/-- Value of a hexadecimal digit, as accepted by JavaScript `parseInt(_, 16)`. -/
def hexDigitVal? (c : Char) : Option Nat :=
  if '0' ≤ c ∧ c ≤ '9' then some (c.toNat - '0'.toNat)
  else if 'a' ≤ c ∧ c ≤ 'f' then some (c.toNat - 'a'.toNat + 10)
  else if 'A' ≤ c ∧ c ≤ 'F' then some (c.toNat - 'A'.toNat + 10)
  else none

/-- JavaScript `parseInt(s.substring(i, i+2), 16)` on the two characters at
hand: parses the longest valid prefix of the (at most two) characters,
`none` for NaN. -/
def parseHex2 (cs : List Char) : Option Nat :=
  match cs with
  | [] => none
  | [c] => hexDigitVal? c
  | c1 :: c2 :: _ =>
    match hexDigitVal? c1, hexDigitVal? c2 with
    | some a, some b => some (16 * a + b)
    | some a, none => some a
    | none, _ => none

/-- JavaScript `hexColor.replace('#', '')`: string-pattern `replace` removes
only the first occurrence. -/
def removeHash : List Char → List Char
  | [] => []
  | c :: r => if c = '#' then r else c :: removeHash r

/-- `image-utils.ts` `isColorDark` (lines 77-92): perceived luminance
`0.299*R + 0.587*G + 0.114*B < 128`, here scaled by 1000 to exact integer
arithmetic (`299*R + 587*G + 114*B < 128000`).  When a component fails to
parse, the JavaScript luminance is NaN and `NaN < 128` is `false`, hence the
`false` fallback. -/
def isColorDark (hexColor : String) : Bool :=
  let hex := removeHash hexColor.data
  match parseHex2 hex, parseHex2 (hex.drop 2), parseHex2 (hex.drop 4) with
  | some r, some g, some b => 299 * r + 587 * g + 114 * b < 128000
  | _, _, _ => false

/-- Brand colors as passed to `addTextOverlay` (`pipeline.ts` lines 133-136). -/
structure BrandColors where
  primary : Option String
  secondary : Option String
deriving DecidableEq

/-- JavaScript truthiness of an optional string: the empty string is falsy. -/
def truthyStr : Option String → Option String
  | some s => if s.isEmpty then none else some s
  | none => none

/-- The brand-color override of `addTextOverlay` (`image-utils.ts` lines
149-171): given the (randomly pre-selected) `fontColor`/`backgroundColor`
pair it returns `(finalBackgroundColor, finalFontColor)`. -/
def overlayColors (fontColor backgroundColor : String)
    (brandColors : Option BrandColors) : String × String :=
  match brandColors with
  | none => (backgroundColor, fontColor)
  | some bc =>
    match truthyStr bc.primary, truthyStr bc.secondary with
    | some p, some s => (p, s)
    | some p, none => (p, if isColorDark p then "#FFFFFF" else "#000000")
    | none, some s => (s, if isColorDark s then "#FFFFFF" else "#000000")
    | none, none => (backgroundColor, fontColor)

/-- JavaScript `text.split(' ')` (single-space separator): every space starts
a new chunk, so consecutive spaces produce empty chunks and `"".split(' ')`
is `[""]`. -/
def splitOnSpace : List Char → List (List Char)
  | [] => [[]]
  | c :: rest =>
    if c = ' ' then [] :: splitOnSpace rest
    else
      match splitOnSpace rest with
      | [] => [[c]]
      | w :: ws => (c :: w) :: ws

/-- The greedy word-wrap loop of `addTextOverlay` (`image-utils.ts` lines
212-224): `currentLine` is extended by `" " ++ word` while the result stays
within `maxChars`; otherwise the (nonempty) current line is pushed and the
word starts a new line.  An empty `currentLine` is falsy in JavaScript and is
never pushed. -/
def wrapWords (maxChars : Nat) : List (List Char) → List Char → List (List Char)
  | [], currentLine => if currentLine = [] then [] else [currentLine]
  | w :: ws, currentLine =>
    let testLine := if currentLine = [] then w else currentLine ++ ' ' :: w
    if testLine.length ≤ maxChars then
      wrapWords maxChars ws testLine
    else if currentLine = [] then
      wrapWords maxChars ws w
    else
      currentLine :: wrapWords maxChars ws w

/-- Wrapping of a whole text at a character budget (`image-utils.ts` lines
210-224). -/
def wrapText (text : String) (maxChars : Nat) : List (List Char) :=
  wrapWords maxChars (splitOnSpace text.data) []

/-- `maxCharsPerLine` of `addTextOverlay` (`image-utils.ts` lines 183 and
211): `floor(imageWidth / (fontSize * 0.6))`, in exact arithmetic
`imageWidth * 10 / (fontSize * 6)`.  The computation uses the full image
width; the logo arguments of the surrounding call do not enter it. -/
def overlayMaxCharsPerLine (imageWidth fontSize : Nat) : Nat :=
  imageWidth * 10 / (fontSize * 6)

/-- The `charsPerLine` the wrapping of `addTextOverlay` actually uses for a
call carrying an optional logo of the given resized width: the source
(`image-utils.ts` line 211) ignores the logo. -/
def overlayCharsPerLineUsed (imageWidth fontSize : Nat)
    (logoWidth : Option Nat) : Nat :=
  match logoWidth with
  | _ => overlayMaxCharsPerLine imageWidth fontSize

/-- The wrapped lines `addTextOverlay` renders for a call with the given
image width, font size and optional logo width. -/
def overlayLinesUsed (imageWidth fontSize : Nat) (logoWidth : Option Nat)
    (text : String) : List (List Char) :=
  wrapText text (overlayCharsPerLineUsed imageWidth fontSize logoWidth)

/-- Logo spacing of `addTextOverlay` (`image-utils.ts` line 251):
`floor(fontSize * 0.8)` when a logo is present. -/
def overlayLogoSpacing (fontSize : Nat) : Nat := fontSize * 8 / 10

/-- Modelled from the spec: the `availableWidth` the specification describes
for text wrapping — the full image width unless a logo reserves horizontal
space, in which case image width minus logo width minus spacing minus
padding.  Stated for refinement comparison against the source computation
`overlayMaxCharsPerLine`, which the file `image-utils.ts` actually uses. -/
def specAvailableWidth (imageWidth fontSize : Nat) (logoWidth : Option Nat)
    (padding : Nat) : Nat :=
  match logoWidth with
  | none => imageWidth
  | some lw => imageWidth - lw - overlayLogoSpacing fontSize - padding

/-- Modelled from the spec: the characters-per-line the specification
predicts, `floor(availableWidth / (fontSize * 0.6))`. -/
def specCharsPerLine (imageWidth fontSize : Nat) (logoWidth : Option Nat)
    (padding : Nat) : Nat :=
  specAvailableWidth imageWidth fontSize logoWidth padding * 10 / (fontSize * 6)

/-- Character-level rendering of the regex replace `/:/g → 'x'` used by
`generateAssetFilename`: a global single-character replacement maps each
character independently. -/
def sanitizeRatioChar (c : Char) : Char := if c = ':' then 'x' else c

/-- The sanitised aspect-ratio label (`image-utils.ts` line 367). -/
def sanitizeRatio (s : String) : String := ⟨s.data.map sanitizeRatioChar⟩

/-- `image-utils.ts` `generateAssetFilename` (lines 360-369) with the
`Date.now()` timestamp and the extension passed explicitly. -/
def generateAssetFilename (campaignId productId aspectRatioLabel : String)
    (timestamp : Nat) (extension : String) : String :=
  campaignId ++ "/" ++ productId ++ "/" ++ sanitizeRatio aspectRatioLabel ++
    "_" ++ toString timestamp ++ "." ++ extension

/-- `generateAssetFilename` with its default extension `'png'`. -/
def generateAssetFilenameD (campaignId productId aspectRatioLabel : String)
    (timestamp : Nat) : String :=
  generateAssetFilename campaignId productId aspectRatioLabel timestamp "png"

/-- Single spaces between words (inverse view of `splitOnSpace`). -/
def joinWithSpaces : List (List Char) → List Char
  | [] => []
  | [w] => w
  | w :: ws => w ++ ' ' :: joinWithSpaces ws

/-- Words satisfy the side conditions of the wrapping claim: each word of the
sentence is nonempty and at most 30 characters long. -/
abbrev WrapWordsOk (text : String) : Prop :=
  ∀ w ∈ splitOnSpace text.data, w ≠ [] ∧ w.length ≤ 30

/-! ## Data model: `types.ts` -/

/-- One item to advertise (`types.ts`, `Product`).  `existingAssets` is an
optional array; the pipeline distinguishes absent from empty (`pipeline.ts`
lines 70 and 156). -/
structure Product where
  id : String
  name : String
  description : String
  existingAssets : Option (List String)
deriving DecidableEq

/-- Modelled from the spec: brand assets of a brief.  The `types.ts` revision
under src/ predates brand assets; the fields follow the spec's data model
(`brandAssets{logo, primaryColor, secondaryColor}`) plus the raw logo payload
`logoBuffer` that the upload route attaches and `pipeline.ts` lines 28-55
read. -/
structure BrandAssets (β : Type) where
  logoBuffer : Option β
  logo : Option String
  primaryColor : Option String
  secondaryColor : Option String
deriving DecidableEq

/-- Modelled from the spec: one generation request (`types.ts`,
`CampaignBrief`).  The revision under src/ lacks `brandAssets`,
`useArtStyle` and `artStyle`, which `pipeline.ts` and `campaign.ts` read;
they are added here following the spec's data model. -/
structure CampaignBrief (β : Type) where
  campaignId : String
  products : List Product
  targetRegion : String
  targetAudience : String
  message : String
  brandAssets : Option (BrandAssets β)
  useArtStyle : Bool
  artStyle : Option String
deriving DecidableEq

/-- Pixel dimensions of a produced asset (`types.ts`, `AssetMetadata`). -/
structure AssetDimensions where
  width : Nat
  height : Nat
deriving DecidableEq

/-- Metadata of a produced asset (`types.ts`, `AssetMetadata`). -/
structure AssetMetadata where
  generatedAt : String
  prompt : Option String
  aspectRatio : String
  dimensions : AssetDimensions
deriving DecidableEq

/-- One produced image (`types.ts`, `GeneratedAsset`). -/
structure GeneratedAsset where
  productId : String
  productName : String
  aspectRatio : String
  path : String
  metadata : AssetMetadata
deriving DecidableEq

/-- One entry of the pipeline's `errors[]` list (`types.ts`,
`PipelineResult.errors`). -/
structure PipeError where
  productId : String
  aspectRatio : String
  error : String
deriving DecidableEq

/-- Run summary (`types.ts`, `PipelineResult.summary`). -/
structure PipelineSummary where
  totalAssets : Nat
  successCount : Nat
  errorCount : Nat
  duration : Nat
deriving DecidableEq

/-- Outcome of one pipeline run (`types.ts`, `PipelineResult`). -/
structure PipelineResult where
  campaignId : String
  assets : List GeneratedAsset
  errors : List PipeError
  summary : PipelineSummary
deriving DecidableEq

/-- Progress-event discriminator (`types.ts`, `ProgressEvent.type`). -/
inductive EventType where
  | start
  | progress
  | complete
  | error
deriving DecidableEq

/-- One lifecycle notification (`types.ts`, `ProgressEvent`).  The `progress`
percentage field is omitted: `sendProgress` takes
`Omit<ProgressEvent, 'progress'>` and never sets it. -/
structure ProgressEvent where
  type : EventType
  campaignId : String
  productId : Option String
  aspectRatio : Option String
  message : String
  asset : Option GeneratedAsset
  error : Option String
  completed : Option Bool
  prompt : Option String
deriving DecidableEq

/-- Event with only the mandatory fields set (all optional fields absent). -/
def mkEvent (t : EventType) (campaignId message : String) : ProgressEvent :=
  ⟨t, campaignId, none, none, message, none, none, none, none⟩

/-! ## The collaborator seam

Image buffers are an abstract type `β`; the cloud capability provider and
the composition engine are records of functions into `Except String _`
(a rejected promise carries its stringified error). -/

/-- The cloud capability provider interface (`cloud-provider.ts`), as
consumed by `pipeline.ts`: `generateImage` takes prompt, negative prompt,
width, height and the optional text-to-render; `upload` takes bytes, path
and content type and returns the stored path. -/
structure CloudProvider (β : Type) where
  download : String → Except String β
  generateImage : String → String → Nat → Nat → Option String → Except String β
  upload : β → String → String → Except String String

/-- Brand colors as `pipeline.ts` line 133 passes them to the overlay. -/
def overlayBrandColorsOf (primary secondary : Option String)
    (hasBrandAssets : Bool) : Option BrandColors :=
  if hasBrandAssets then some ⟨primary, secondary⟩ else none

/-- The options record `pipeline.ts` lines 128-138 passes to
`addTextOverlay` (position, background and font are chosen randomly inside
the overlay and are not part of the call). -/
structure OverlayCall (β : Type) where
  text : String
  fontSize : Nat
  logo : Option β
  logoPosition : String
  brandColors : Option BrandColors

/-- The composition engine as a collaborator: `resizeImage` and
`addTextOverlay` of `image-utils.ts`, either of which may fail
(invalid buffer, decode failure, …). -/
structure ImageOps (β : Type) where
  resizeImage : β → Nat → Nat → Except String β
  addTextOverlay : β → OverlayCall β → Except String β

/-- The brief fields `generateImagePrompt` (`campaign.ts` lines 154-209)
reads, plus its direct arguments. -/
structure PromptArgs where
  primaryColor : Option String
  secondaryColor : Option String
  useArtStyle : Bool
  artStyle : Option String
  message : String
  productName : String
  productDescription : String
  includeText : Bool
deriving DecidableEq

/-- `generateNegativePrompt` (`campaign.ts` lines 214-216). -/
def generateNegativePrompt : String :=
  "text, words, letters, writing, typography, captions, labels, signs, watermark, logo text, blurry, low quality, distorted, deformed, ugly, bad anatomy, amateur, unprofessional, poor lighting, oversaturated, undersaturated, grainy, pixelated, artifacts, cluttered, messy background, low resolution, poor composition, cheap-looking, stock photo aesthetic"

/-- Ambient state of one `execute` run: the injected collaborators, the
`USE_AI_TEXT_RENDERING` environment flag, the clock reads (`Date.now()`,
`toISOString()`, the measured duration), and the prompt builder
`generateImagePrompt`, kept opaque because no claim depends on the prompt
text. -/
structure PipelineEnv (β : Type) where
  provider : CloudProvider β
  ops : ImageOps β
  useAIText : Bool
  now : Nat
  nowIso : String
  duration : Nat
  generateImagePrompt : PromptArgs → String

/-! ## Generation pipeline: `pipeline.ts` `CreativePipeline.execute` -/

/-- The projection of the brief that the per-product loop body reads
(`pipeline.ts` lines 62-212). -/
structure BriefView where
  campaignId : String
  message : String
  useArtStyle : Bool
  artStyle : Option String
  hasBrandAssets : Bool
  primaryColor : Option String
  secondaryColor : Option String
deriving DecidableEq

/-- View of a brief as read by the loop body. -/
def briefView {β : Type} (brief : CampaignBrief β) : BriefView :=
  { campaignId := brief.campaignId
    message := brief.message
    useArtStyle := brief.useArtStyle
    artStyle := brief.artStyle
    hasBrandAssets := brief.brandAssets.isSome
    primaryColor := brief.brandAssets.bind (fun ba => ba.primaryColor)
    secondaryColor := brief.brandAssets.bind (fun ba => ba.secondaryColor) }

/-- Arguments for one `generateImagePrompt` call. -/
def promptArgsOf (v : BriefView) (productName productDescription : String)
    (includeText : Bool) : PromptArgs :=
  { primaryColor := v.primaryColor
    secondaryColor := v.secondaryColor
    useArtStyle := v.useArtStyle
    artStyle := v.artStyle
    message := v.message
    productName := productName
    productDescription := productDescription
    includeText := includeText }

/-- Logo placement for an aspect ratio (`pipeline.ts` lines 120-122):
the parity of the ratio's index in `ASPECT_RATIOS` picks `'prefix'` or
`'suffix'`. -/
def logoPositionFor (label : String) : String :=
  if List.findIdx (fun ar => ar.label == label) ASPECT_RATIOS % 2 = 0 then
    "prefix"
  else
    "suffix"

/-- Error message recorded for a failed variant (`pipeline.ts` line 174). -/
def variantFailureMsg (label e : String) : String :=
  "Failed to create " ++ label ++ " variant: " ++ e

/-- Error message recorded for a failed base-image acquisition
(`pipeline.ts` line 193). -/
def productFailureMsg (productName e : String) : String :=
  "Failed to process product " ++ productName ++ ": " ++ e

/-- The fallible part of one aspect-ratio iteration (`pipeline.ts` lines
114-158): resize, overlay (skipped under `useAIText`), upload, and the
built `GeneratedAsset`. -/
def ratioStep {β : Type} (env : PipelineEnv β) (v : BriefView)
    (logoBuffer : Option β) (product : Product) (baseImage : β)
    (ar : AspectRatio) : Except String GeneratedAsset :=
  match env.ops.resizeImage baseImage ar.width ar.height with
  | Except.error e => Except.error e
  | Except.ok resized =>
    match
      if env.useAIText then Except.ok resized
      else
        env.ops.addTextOverlay resized
          { text := v.message
            fontSize := ar.width / 20
            logo := logoBuffer
            logoPosition := logoPositionFor ar.label
            brandColors := overlayBrandColorsOf v.primaryColor v.secondaryColor v.hasBrandAssets }
    with
    | Except.error e => Except.error e
    | Except.ok final =>
      match env.provider.upload final
          (generateAssetFilenameD v.campaignId product.id ar.label env.now) "image/png" with
      | Except.error e => Except.error e
      | Except.ok filePath =>
        Except.ok
          { productId := product.id
            productName := product.name
            aspectRatio := ar.label
            path := filePath
            metadata :=
              { generatedAt := env.nowIso
                prompt :=
                  match product.existingAssets with
                  | some _ => none
                  | none =>
                    some (env.generateImagePrompt
                      (promptArgsOf v product.name product.description false))
                aspectRatio := ar.label
                dimensions := ⟨ar.width, ar.height⟩ } }

/-- Contribution of a loop iteration to the run's accumulators. -/
structure StepAcc where
  assets : List GeneratedAsset
  errors : List PipeError
  events : List ProgressEvent
deriving DecidableEq

/-- One aspect-ratio iteration with its per-variant try scope
(`pipeline.ts` lines 102-190): an informational event, then either the
asset with its completion event, or one error entry with one error
event. -/
def processRatio {β : Type} (env : PipelineEnv β) (v : BriefView)
    (logoBuffer : Option β) (product : Product) (baseImage : β)
    (ar : AspectRatio) : StepAcc :=
  let creating : ProgressEvent :=
    { mkEvent EventType.progress v.campaignId
        ("Creating " ++ ar.label ++ " variant for " ++ product.name ++ "...") with
      productId := some product.id
      aspectRatio := some ar.label }
  match ratioStep env v logoBuffer product baseImage ar with
  | Except.ok asset =>
    let done : ProgressEvent :=
      { mkEvent EventType.progress v.campaignId
          ("Created " ++ ar.label ++ " variant for " ++ product.name) with
        productId := some product.id
        aspectRatio := some ar.label
        asset := some asset
        completed := some true }
    ⟨[asset], [], [creating, done]⟩
  | Except.error e =>
    let errorMsg := variantFailureMsg ar.label e
    let errEvt : ProgressEvent :=
      { mkEvent EventType.error v.campaignId errorMsg with
        productId := some product.id
        aspectRatio := some ar.label
        error := some errorMsg }
    ⟨[], [⟨product.id, ar.label, errorMsg⟩], [creating, errEvt]⟩

/-- Base-image acquisition for a product (`pipeline.ts` lines 68-99): the
first existing asset is downloaded when the optional array is nonempty,
otherwise an informational event is emitted and the provider generates a
1024×1024 image. -/
def acquireBase {β : Type} (env : PipelineEnv β) (v : BriefView)
    (product : Product) : List ProgressEvent × Except String β :=
  match product.existingAssets with
  | some (first :: _) => ([], env.provider.download first)
  | _ =>
    let prompt := env.generateImagePrompt
      (promptArgsOf v product.name product.description env.useAIText)
    let ev : ProgressEvent :=
      { mkEvent EventType.progress v.campaignId
          ("Generating image for " ++ product.name ++ "...") with
        productId := some product.id
        prompt := if v.useArtStyle then some prompt else none }
    ([ev], env.provider.generateImage prompt generateNegativePrompt 1024 1024
        (if env.useAIText then some v.message else none))

/-- One product iteration with its acquisition try scope (`pipeline.ts`
lines 62-212): an acquisition failure records one error entry per aspect
ratio, emits one error event and skips the aspect-ratio loop; otherwise the
aspect ratios are processed in order. -/
def processProduct {β : Type} (env : PipelineEnv β) (v : BriefView)
    (logoBuffer : Option β) (product : Product) : StepAcc :=
  let acq := acquireBase env v product
  match acq.2 with
  | Except.ok baseImage =>
    let steps := ASPECT_RATIOS.map (processRatio env v logoBuffer product baseImage)
    ⟨(steps.map StepAcc.assets).flatten,
      (steps.map StepAcc.errors).flatten,
      acq.1 ++ (steps.map StepAcc.events).flatten⟩
  | Except.error e =>
    let errorMsg := productFailureMsg product.name e
    let errEvt : ProgressEvent :=
      { mkEvent EventType.error v.campaignId errorMsg with
        productId := some product.id
        error := some errorMsg }
    ⟨[], ASPECT_RATIOS.map (fun ar => ⟨product.id, ar.label, errorMsg⟩),
      acq.1 ++ [errEvt]⟩

/-- Logo resolution at the start of `execute` (`pipeline.ts` lines 33-58):
an attached raw logo is uploaded (on failure the run continues without a
logo), else a truthy logo path is downloaded (on failure likewise); no
events are emitted and no error entries are recorded either way. -/
def resolveLogo {β : Type} (env : PipelineEnv β) (brief : CampaignBrief β) :
    Option β :=
  match brief.brandAssets with
  | none => none
  | some ba =>
    match ba.logoBuffer with
    | some buf =>
      match env.provider.upload buf ("logos/" ++ brief.campaignId ++ "-logo.png") "image/png" with
      | Except.ok _ => some buf
      | Except.error _ => none
    | none =>
      match truthyStr ba.logo with
      | some path =>
        match env.provider.download path with
        | Except.ok b => some b
        | Except.error _ => none
      | none => none

/-- Rendering of `(duration / 1000).toFixed(1)` in the completion message:
seconds with one rounded decimal. -/
def fmtDurationSecs (ms : Nat) : String :=
  let tenths := (ms + 50) / 100
  toString (tenths / 10) ++ "." ++ toString (tenths % 10)

/-- `CreativePipeline.execute` (`pipeline.ts` lines 20-247) as a pure
function of the run environment: returns the `PipelineResult` and the
ordered list of events handed to the progress callback.  The embedded body
is total — every fallible step is handled inside its per-item scope — so the
catastrophic re-throw path (lines 237-246) is unreachable in the model. -/
def execute {β : Type} (env : PipelineEnv β) (brief : CampaignBrief β) :
    PipelineResult × List ProgressEvent :=
  let logoBuffer := resolveLogo env brief
  let v := briefView brief
  let contribs := brief.products.map (processProduct env v logoBuffer)
  let assets := (contribs.map StepAcc.assets).flatten
  let errors := (contribs.map StepAcc.errors).flatten
  let events := (contribs.map StepAcc.events).flatten
  let result : PipelineResult :=
    { campaignId := brief.campaignId
      assets := assets
      errors := errors
      summary :=
        { totalAssets := brief.products.length * ASPECT_RATIOS.length
          successCount := assets.length
          errorCount := errors.length
          duration := env.duration } }
  let completeEvt : ProgressEvent :=
    mkEvent EventType.complete brief.campaignId
      ("Campaign generation complete. Generated " ++ toString assets.length ++
        " assets in " ++ fmtDurationSecs env.duration ++ "s")
  (result, events ++ [completeEvt])

/-- Every provider and composition call succeeds (the hypothesis of the
all-success clauses of the spec's testable properties). -/
def AlwaysSucceeds {β : Type} (env : PipelineEnv β) : Prop :=
  (∀ p, (env.provider.download p).isOk = true) ∧
  (∀ p np w h t, (env.provider.generateImage p np w h t).isOk = true) ∧
  (∀ b p c, (env.provider.upload b p c).isOk = true) ∧
  (∀ b w h, (env.ops.resizeImage b w h).isOk = true) ∧
  (∀ b o, (env.ops.addTextOverlay b o).isOk = true)

/-- The same brief without a logo: brand colors kept, raw logo payload and
logo path removed. -/
def stripLogo {β : Type} (brief : CampaignBrief β) : CampaignBrief β :=
  { brief with
    brandAssets := brief.brandAssets.map fun ba =>
      { ba with logoBuffer := none, logo := none } }

/-- The run's logo acquisition fails: a raw logo payload is attached and its
upload fails, or only a (truthy) logo path is given and its download
fails. -/
def LogoAcquisitionFails {β : Type} (env : PipelineEnv β)
    (brief : CampaignBrief β) : Prop :=
  ∃ ba, brief.brandAssets = some ba ∧
    ((∃ buf, ba.logoBuffer = some buf ∧
        (env.provider.upload buf ("logos/" ++ brief.campaignId ++ "-logo.png") "image/png").isOk = false) ∨
     (ba.logoBuffer = none ∧ ∃ path, truthyStr ba.logo = some path ∧
        (env.provider.download path).isOk = false))

/-! ## Concrete runs used by witnesses and counterexamples -/

/-- Provider over trivial buffers whose calls all succeed. -/
def demoProvider : CloudProvider Unit :=
  { download := fun _ => Except.ok ()
    generateImage := fun _ _ _ _ _ => Except.ok ()
    upload := fun _ p _ => Except.ok p }

/-- Composition engine over trivial buffers whose calls all succeed. -/
def demoOps : ImageOps Unit :=
  { resizeImage := fun b _ _ => Except.ok b
    addTextOverlay := fun b _ => Except.ok b }

/-- Environment in which every call succeeds; the prompt builder returns the
product name so that per-product behaviour can be keyed on it. -/
def demoEnv : PipelineEnv Unit :=
  { provider := demoProvider
    ops := demoOps
    useAIText := false
    now := 0
    nowIso := "t0"
    duration := 0
    generateImagePrompt := fun a => a.productName }

/-- First demo product (no existing assets, so its base image is generated). -/
def demoProductOne : Product := ⟨"p1", "ProductOne", "descOne", none⟩

/-- Second demo product. -/
def demoProductTwo : Product := ⟨"p2", "ProductTwo", "descTwo", none⟩

/-- The second configured aspect ratio. -/
def demoRatio916 : AspectRatio := ⟨1080, 1920, "9:16"⟩

/-- Two-product brief without brand assets. -/
def demoBrief : CampaignBrief Unit :=
  { campaignId := "camp"
    products := [demoProductOne, demoProductTwo]
    targetRegion := "region"
    targetAudience := "aud"
    message := "Buy now"
    brandAssets := none
    useArtStyle := false
    artStyle := none }

/-- Like `demoEnv` but image generation fails for the second demo product
(its prompt is its product name). -/
def demoEnvFailGen : PipelineEnv Unit :=
  { demoEnv with
    provider :=
      { demoProvider with
        generateImage := fun p _ _ _ _ =>
          if p = "ProductTwo" then Except.error "boom" else Except.ok () } }

/-- Like `demoEnv` but the overlay fails exactly for the variants whose logo
position is `'suffix'` (the second configured aspect ratio). -/
def demoEnvFailOverlay : PipelineEnv Unit :=
  { demoEnv with
    ops :=
      { demoOps with
        addTextOverlay := fun b o =>
          if o.logoPosition = "suffix" then Except.error "overlay down" else Except.ok b } }

/-- Demo brief carrying a raw logo payload and brand colors. -/
def demoBriefLogo : CampaignBrief Unit :=
  { demoBrief with
    brandAssets := some ⟨some (), none, some "#112233", none⟩ }

/-- Like `demoEnv` but uploading the brand logo fails (asset uploads still
succeed). -/
def demoEnvFailLogo : PipelineEnv Unit :=
  { demoEnv with
    provider :=
      { demoProvider with
        upload := fun _ p _ =>
          if p = "logos/camp-logo.png" then Except.error "logo upload down"
          else Except.ok p } }

/-- The 60-character three-word sentence on which greedy wrapping produces
three lines. -/
def wrapCounterexampleText : String :=
  "aaaaaaaaaaaaaa bbbbbbbbbbbbbbbbbbbbbbbbbbbbbb cccccccccccccc"

/-! ## Wrapping lemmas -/

theorem splitOnSpace_ne_nil (cs : List Char) : splitOnSpace cs ≠ [] := by
  induction cs with
  | nil => simp [splitOnSpace]
  | cons c rest ih =>
    by_cases hc : c = ' '
    · simp [splitOnSpace, hc]
    · simp only [splitOnSpace, if_neg hc]
      cases h : splitOnSpace rest with
      | nil => simp
      | cons w ws => simp

theorem wrapWords_ne_nil (maxChars : Nat) :
    ∀ (ws : List (List Char)) (cur : List Char), cur ≠ [] →
      wrapWords maxChars ws cur ≠ [] := by
  intro ws
  induction ws with
  | nil => intro cur hcur; simp [wrapWords, hcur]
  | cons w ws ih =>
    intro cur hcur
    simp only [wrapWords, if_neg hcur]
    by_cases h : (cur ++ ' ' :: w).length ≤ maxChars
    · rw [if_pos h]
      exact ih _ (by simp)
    · rw [if_neg h]
      simp

theorem wrapWords_forall_le (maxChars : Nat) :
    ∀ (ws : List (List Char)) (cur : List Char),
      (∀ w ∈ ws, w.length ≤ maxChars) → cur.length ≤ maxChars →
      ∀ l ∈ wrapWords maxChars ws cur, l.length ≤ maxChars := by
  intro ws
  induction ws with
  | nil =>
    intro cur _ hcur l hl
    by_cases h : cur = []
    · simp [wrapWords, h] at hl
    · simp only [wrapWords, if_neg h, List.mem_singleton] at hl
      exact hl ▸ hcur
  | cons w ws ih =>
    intro cur hws hcur l hl
    by_cases h0 : cur = []
    · subst h0
      have h : w.length ≤ maxChars := hws w (List.mem_cons_self _ _)
      have hstep : wrapWords maxChars (w :: ws) [] = wrapWords maxChars ws w := by
        simp [wrapWords, h]
      rw [hstep] at hl
      exact ih w (fun x hx => hws x (List.mem_cons_of_mem _ hx)) h l hl
    · simp only [wrapWords, if_neg h0] at hl
      by_cases h : (cur ++ ' ' :: w).length ≤ maxChars
      · rw [if_pos h] at hl
        exact ih _ (fun x hx => hws x (List.mem_cons_of_mem _ hx)) h l hl
      · rw [if_neg h] at hl
        rcases List.mem_cons.1 hl with rfl | hl2
        · exact hcur
        · exact ih w (fun x hx => hws x (List.mem_cons_of_mem _ hx))
            (hws w (List.mem_cons_self _ _)) l hl2

theorem joinWithSpaces_cons_append (cur w : List Char) (ws : List (List Char)) :
    joinWithSpaces ((cur ++ ' ' :: w) :: ws) = cur ++ ' ' :: joinWithSpaces (w :: ws) := by
  cases ws with
  | nil => rfl
  | cons v vs => simp [joinWithSpaces]

theorem wrapWords_single_or_two (maxChars : Nat) :
    ∀ (ws : List (List Char)) (cur : List Char),
      (∀ w ∈ ws, w ≠ []) → cur ≠ [] →
      wrapWords maxChars ws cur = [joinWithSpaces (cur :: ws)] ∨
        2 ≤ (wrapWords maxChars ws cur).length := by
  intro ws
  induction ws with
  | nil =>
    intro cur _ hcur
    left
    simp [wrapWords, hcur, joinWithSpaces]
  | cons w ws ih =>
    intro cur hws hcur
    simp only [wrapWords, if_neg hcur]
    by_cases h : (cur ++ ' ' :: w).length ≤ maxChars
    · rw [if_pos h]
      rcases ih (cur ++ ' ' :: w) (fun x hx => hws x (List.mem_cons_of_mem _ hx))
          (by simp) with h1 | h2
      · left
        rw [h1, joinWithSpaces_cons_append]
        rfl
      · right
        exact h2
    · rw [if_neg h]
      right
      have hne := wrapWords_ne_nil maxChars ws w (hws w (List.mem_cons_self _ _))
      have : 0 < (wrapWords maxChars ws w).length := List.length_pos.2 hne
      simp only [List.length_cons]
      omega

theorem joinWithSpaces_splitOnSpace (cs : List Char) :
    joinWithSpaces (splitOnSpace cs) = cs := by
  induction cs with
  | nil => rfl
  | cons c rest ih =>
    by_cases hc : c = ' '
    · simp only [splitOnSpace, if_pos hc]
      cases h : splitOnSpace rest with
      | nil => exact absurd h (splitOnSpace_ne_nil rest)
      | cons s ss =>
        rw [h] at ih
        simp [joinWithSpaces, ← ih, hc]
    · simp only [splitOnSpace, if_neg hc]
      cases h : splitOnSpace rest with
      | nil => exact absurd h (splitOnSpace_ne_nil rest)
      | cons w ws =>
        rw [h] at ih
        cases ws with
        | nil => simpa [joinWithSpaces] using congrArg (c :: ·) ih
        | cons v vs =>
          simpa [joinWithSpaces] using congrArg (c :: ·) ih

theorem sanitizeRatio_no_colon (ar : String) :
    ((sanitizeRatio ar).data.all fun ch => ch != ':') = true := by
  show (ar.data.map sanitizeRatioChar).all (fun ch => ch != ':') = true
  induction ar.data with
  | nil => rfl
  | cons c cs ih =>
    simp only [List.map_cons, List.all_cons, ih, Bool.and_true]
    unfold sanitizeRatioChar
    by_cases h : c = ':'
    · simp [h]
    · simp [h]

/-- C5 (corrected): when both brand colors are supplied (and nonempty), the
overlay background is the primary color and the text color is the
*secondary* color, with no luminance check; the luminance rule (white text
when `0.299R + 0.587G + 0.114B < 128`, black otherwise) applies only when
exactly one brand color is supplied, and then `#000000` yields white text
and `#FFFFFF` yields black text. -/
theorem c5_brand_color_contrast :
    (∀ fontColor backgroundColor p s bc,
        truthyStr (BrandColors.primary bc) = some p →
        truthyStr (BrandColors.secondary bc) = some s →
        overlayColors fontColor backgroundColor (some bc) = (p, s)) ∧
    (∀ fontColor backgroundColor p bc,
        truthyStr (BrandColors.primary bc) = some p →
        truthyStr (BrandColors.secondary bc) = none →
        overlayColors fontColor backgroundColor (some bc)
          = (p, if isColorDark p then "#FFFFFF" else "#000000")) ∧
    (∀ fontColor backgroundColor s bc,
        truthyStr (BrandColors.primary bc) = none →
        truthyStr (BrandColors.secondary bc) = some s →
        overlayColors fontColor backgroundColor (some bc)
          = (s, if isColorDark s then "#FFFFFF" else "#000000")) ∧
    isColorDark "#000000" = true ∧
    isColorDark "#FFFFFF" = false ∧
    (∀ fontColor backgroundColor,
        overlayColors fontColor backgroundColor (some ⟨some "#000000", none⟩)
          = ("#000000", "#FFFFFF")) ∧
    (∀ fontColor backgroundColor,
        overlayColors fontColor backgroundColor (some ⟨some "#FFFFFF", none⟩)
          = ("#FFFFFF", "#000000")) := by
  refine ⟨?_, ?_, ?_, by decide, by decide, ?_, ?_⟩
  · intro fontColor backgroundColor p s bc h1 h2
    simp [overlayColors, h1, h2]
  · intro fontColor backgroundColor p bc h1 h2
    simp [overlayColors, h1, h2]
  · intro fontColor backgroundColor s bc h1 h2
    simp [overlayColors, h1, h2]
  · intro fontColor backgroundColor
    rfl
  · intro fontColor backgroundColor
    rfl

/-- C5 witness: the both-colors clause applied at a concrete call. -/
theorem c5_brand_color_contrast_witness :
    truthyStr (BrandColors.primary ⟨some "#112233", some "#445566"⟩) = some "#112233" ∧
    truthyStr (BrandColors.secondary ⟨some "#112233", some "#445566"⟩) = some "#445566" ∧
    overlayColors "#FFFFFF" "rgba(0, 0, 0, 0.65)" (some ⟨some "#112233", some "#445566"⟩)
      = ("#112233", "#445566") :=
  ⟨by decide, by decide,
    c5_brand_color_contrast.1 "#FFFFFF" "rgba(0, 0, 0, 0.65)" "#112233" "#445566"
      ⟨some "#112233", some "#445566"⟩ (by decide) (by decide)⟩

/-- C5 counterexample: with primary and secondary both `#000000`, the
claimed luminance rule demands white text (`L = 0 < 128`), but the code
uses the secondary color and the text comes out black. -/
theorem c5_counterexample :
    overlayColors "#FFFFFF" "rgba(0, 0, 0, 0.65)" (some ⟨some "#000000", some "#000000"⟩)
      = ("#000000", "#000000") ∧
    isColorDark "#000000" = true ∧
    ("#000000" : String) ≠ "#FFFFFF" := by
  refine ⟨by decide, by decide, by decide⟩

/-- C6 (corrected): `charsPerLine = floor(availableWidth / (fontSize×0.6))`
gives 30 at image width 1080 and font size 60, `"Hello World"` wraps to one
line, and every 60-character sentence of nonempty single-space-separated
words none of which exceeds 30 characters wraps to *at least* two lines —
but not always exactly two: the greedy packing can produce three (see the
counterexample). -/
theorem c6_text_wrapping :
    overlayMaxCharsPerLine 1080 60 = 30 ∧
    wrapText "Hello World" 30 = ["Hello World".data] ∧
    ∀ text : String, text.length = 60 → WrapWordsOk text →
      2 ≤ (wrapText text 30).length := by
  refine ⟨by decide, by decide, ?_⟩
  intro text hlen hok
  obtain ⟨w, rest, hsplit⟩ : ∃ w rest, splitOnSpace text.data = w :: rest := by
    cases h : splitOnSpace text.data with
    | nil => exact absurd h (splitOnSpace_ne_nil _)
    | cons a l => exact ⟨a, l, rfl⟩
  have hw := hok w (by rw [hsplit]; exact List.mem_cons_self _ _)
  have hrest : ∀ x ∈ rest, x ≠ [] ∧ x.length ≤ 30 := fun x hx =>
    hok x (by rw [hsplit]; exact List.mem_cons_of_mem _ hx)
  unfold wrapText
  rw [hsplit]
  have hstep : wrapWords 30 (w :: rest) [] = wrapWords 30 rest w := by
    simp [wrapWords, hw.2]
  rw [hstep]
  rcases wrapWords_single_or_two 30 rest w (fun x hx => (hrest x hx).1) hw.1 with h1 | h2
  · exfalso
    have hmem : joinWithSpaces (w :: rest) ∈ wrapWords 30 rest w := by
      rw [h1]; exact List.mem_singleton.2 rfl
    have hle : (joinWithSpaces (w :: rest)).length ≤ 30 :=
      wrapWords_forall_le 30 rest w (fun x hx => (hrest x hx).2) hw.2 _ hmem
    have hjoin : joinWithSpaces (w :: rest) = text.data := by
      rw [← hsplit]; exact joinWithSpaces_splitOnSpace text.data
    have hdlen : text.data.length = 60 := hlen
    rw [hjoin, hdlen] at hle
    omega
  · exact h2

/-- C6 witness: a 60-character sentence of nonempty words of at most 30
characters, wrapping to at least two lines. -/
theorem c6_text_wrapping_witness :
    (wrapCounterexampleText.length = 60) ∧
    WrapWordsOk wrapCounterexampleText ∧
    2 ≤ (wrapText wrapCounterexampleText 30).length :=
  ⟨by decide, by decide,
    c6_text_wrapping.2.2 wrapCounterexampleText (by decide) (by decide)⟩

/-- C6 counterexample: a 60-character sentence with no word over 30
characters that greedy wrapping splits into three lines, not two. -/
theorem c6_counterexample :
    (wrapCounterexampleText.length = 60) ∧
    WrapWordsOk wrapCounterexampleText ∧
    (wrapText wrapCounterexampleText 30).length = 3 ∧
    (wrapText wrapCounterexampleText 30).length ≠ 2 := by
  refine ⟨by decide, by decide, by decide, by decide⟩

/-- C7 (corrected): the `charsPerLine` used by `addTextOverlay`'s wrapping
is computed from the *full* image width whether or not a logo is supplied;
a logo changes neither `charsPerLine` nor the wrapped lines (it only moves
the drawn text and logo horizontally). -/
theorem c7_available_width :
    (∀ imageWidth fontSize logoWidth,
        overlayCharsPerLineUsed imageWidth fontSize (some logoWidth)
          = overlayCharsPerLineUsed imageWidth fontSize none) ∧
    (∀ imageWidth fontSize logoWidth text,
        overlayLinesUsed imageWidth fontSize (some logoWidth) text
          = overlayLinesUsed imageWidth fontSize none text) ∧
    (∀ imageWidth fontSize logoWidth,
        overlayCharsPerLineUsed imageWidth fontSize logoWidth
          = overlayMaxCharsPerLine imageWidth fontSize) :=
  ⟨fun _ _ _ => rfl, fun _ _ _ _ => rfl, fun _ _ _ => rfl⟩

/-- C7 counterexample: at image width 1080, font size 60, padding 20 and a
90-pixel logo (a square logo at `1.5 × fontSize`), the spec's
`availableWidth` formula predicts 25 characters per line, but the code uses
30 with and without the logo — supplying a logo does not shrink
`charsPerLine`. -/
theorem c7_counterexample :
    overlayCharsPerLineUsed 1080 60 (some 90) = 30 ∧
    overlayCharsPerLineUsed 1080 60 none = 30 ∧
    specCharsPerLine 1080 60 (some 90) 20 = 25 ∧
    ¬ overlayCharsPerLineUsed 1080 60 (some 90) < overlayCharsPerLineUsed 1080 60 none ∧
    overlayCharsPerLineUsed 1080 60 (some 90) ≠ specCharsPerLine 1080 60 (some 90) 20 := by
  refine ⟨by decide, by decide, by decide, by decide, by decide⟩

/-- C8: the logo position for the configured ratio list, in order, is
prefix, suffix, prefix; in general the position of the ratio at index `i`
of `ASPECT_RATIOS` is `'prefix'` for even `i` and `'suffix'` for odd
`i`. -/
theorem c8_logo_alternation :
    ASPECT_RATIOS.map (fun ar => logoPositionFor ar.label)
      = ["prefix", "suffix", "prefix"] ∧
    ∀ i : Fin ASPECT_RATIOS.length,
      logoPositionFor (ASPECT_RATIOS.get i).label
        = if i.val % 2 = 0 then "prefix" else "suffix" := by
  refine ⟨by decide, by decide⟩

/-- C8 witness: the middle configured ratio (index 1, `9:16`) gets
`'suffix'`. -/
theorem c8_logo_alternation_witness :
    logoPositionFor (ASPECT_RATIOS.get ⟨1, by decide⟩).label
      = if 1 % 2 = 0 then "prefix" else "suffix" :=
  c8_logo_alternation.2 ⟨1, by decide⟩

/-- C9: the generated asset filename is exactly
`{campaignId}/{productId}/{label with every ':' mapped to 'x'}_{timestamp}.{ext}`,
character by character; no `':'` survives sanitisation; the extension
defaults to `'png'`. -/
theorem c9_filename_format :
    (∀ c p ar ts ext, (generateAssetFilename c p ar ts ext).data
        = c.data ++ '/' :: p.data ++ '/' :: ar.data.map sanitizeRatioChar
          ++ '_' :: (toString ts).data ++ '.' :: ext.data) ∧
    (∀ ar : String, ((sanitizeRatio ar).data.all fun ch => ch != ':') = true) ∧
    (∀ c p ar ts, generateAssetFilenameD c p ar ts = generateAssetFilename c p ar ts "png") ∧
    generateAssetFilenameD "camp" "prod" "1:1" 5 = "camp/prod/1x1_5.png" := by
  refine ⟨?_, sanitizeRatio_no_colon, fun _ _ _ _ => rfl, by decide⟩
  intro c p ar ts ext
  simp only [generateAssetFilename, String.data_append, sanitizeRatio]
  simp [List.append_assoc]

/-! ## Pipeline lemmas -/

theorem exceptIsOk_iff {α : Type} (x : Except String α) :
    x.isOk = true ↔ ∃ a, x = Except.ok a := by
  cases x <;> simp [Except.isOk, Except.toBool]

theorem processRatio_count {β : Type} (env : PipelineEnv β) (v : BriefView)
    (l : Option β) (p : Product) (b : β) (ar : AspectRatio) :
    (processRatio env v l p b ar).assets.length
      + (processRatio env v l p b ar).errors.length = 1 := by
  unfold processRatio
  cases h : ratioStep env v l p b ar <;> simp

theorem ratio_counts_aux {β : Type} (env : PipelineEnv β) (v : BriefView)
    (l : Option β) (p : Product) (b : β) :
    ∀ ars : List AspectRatio,
      (((ars.map (processRatio env v l p b)).map StepAcc.assets).flatten).length
        + (((ars.map (processRatio env v l p b)).map StepAcc.errors).flatten).length
        = ars.length := by
  intro ars
  induction ars with
  | nil => rfl
  | cons a rest ih =>
    simp only [List.map_cons, List.flatten_cons, List.length_append, List.length_cons]
    have h := processRatio_count env v l p b a
    omega

theorem processProduct_count {β : Type} (env : PipelineEnv β) (v : BriefView)
    (l : Option β) (p : Product) :
    (processProduct env v l p).assets.length
      + (processProduct env v l p).errors.length = ASPECT_RATIOS.length := by
  simp only [processProduct]
  cases h : (acquireBase env v p).2 with
  | error e => simp
  | ok b => simpa using ratio_counts_aux env v l p b ASPECT_RATIOS

theorem products_counts_aux {β : Type} (env : PipelineEnv β) (v : BriefView)
    (l : Option β) :
    ∀ ps : List Product,
      (((ps.map (processProduct env v l)).map StepAcc.assets).flatten).length
        + (((ps.map (processProduct env v l)).map StepAcc.errors).flatten).length
        = ps.length * ASPECT_RATIOS.length := by
  intro ps
  induction ps with
  | nil => rfl
  | cons p rest ih =>
    simp only [List.map_cons, List.flatten_cons, List.length_append, List.length_cons]
    have h := processProduct_count env v l p
    have hR : ASPECT_RATIOS.length = 3 := rfl
    rw [hR] at h ih ⊢
    omega

theorem acquireBase_isOk {β : Type} (env : PipelineEnv β) (v : BriefView)
    (p : Product) (h : AlwaysSucceeds env) :
    ((acquireBase env v p).2).isOk = true := by
  obtain ⟨hdl, hgen, hup, hres, hov⟩ := h
  unfold acquireBase
  cases hpe : p.existingAssets with
  | none => exact hgen _ _ _ _ _
  | some l =>
    cases l with
    | nil => exact hgen _ _ _ _ _
    | cons a rest => exact hdl a

theorem ratioStep_isOk {β : Type} (env : PipelineEnv β) (v : BriefView)
    (l : Option β) (p : Product) (b : β) (ar : AspectRatio)
    (h : AlwaysSucceeds env) : (ratioStep env v l p b ar).isOk = true := by
  obtain ⟨hdl, hgen, hup, hres, hov⟩ := h
  obtain ⟨r, hr⟩ := (exceptIsOk_iff _).1 (hres b ar.width ar.height)
  unfold ratioStep
  rw [hr]
  by_cases hai : env.useAIText
  · obtain ⟨fp, hfp⟩ := (exceptIsOk_iff _).1
      (hup r (generateAssetFilenameD v.campaignId p.id ar.label env.now) "image/png")
    simp [hai, hfp, Except.bind, Except.map, Except.pure, Except.isOk, Except.toBool]
  · obtain ⟨o, ho⟩ := (exceptIsOk_iff _).1
      (hov r
        { text := v.message
          fontSize := ar.width / 20
          logo := l
          logoPosition := logoPositionFor ar.label
          brandColors := overlayBrandColorsOf v.primaryColor v.secondaryColor v.hasBrandAssets })
    obtain ⟨fp, hfp⟩ := (exceptIsOk_iff _).1
      (hup o (generateAssetFilenameD v.campaignId p.id ar.label env.now) "image/png")
    simp [hai, ho, hfp, Except.bind, Except.map, Except.pure, Except.isOk, Except.toBool]

theorem processRatio_errors_nil {β : Type} (env : PipelineEnv β) (v : BriefView)
    (l : Option β) (p : Product) (b : β) (ar : AspectRatio)
    (h : AlwaysSucceeds env) : (processRatio env v l p b ar).errors = [] := by
  obtain ⟨a, ha⟩ := (exceptIsOk_iff _).1 (ratioStep_isOk env v l p b ar h)
  simp [processRatio, ha]

theorem processProduct_errors_nil {β : Type} (env : PipelineEnv β) (v : BriefView)
    (l : Option β) (p : Product) (h : AlwaysSucceeds env) :
    (processProduct env v l p).errors = [] := by
  obtain ⟨b, hb⟩ := (exceptIsOk_iff _).1 (acquireBase_isOk env v p h)
  simp only [processProduct]
  rw [hb]
  have haux : ∀ ars : List AspectRatio,
      ((ars.map (processRatio env v l p b)).map StepAcc.errors).flatten = [] := by
    intro ars
    induction ars with
    | nil => rfl
    | cons a rest ih =>
      simp only [List.map_cons, List.flatten_cons,
        processRatio_errors_nil env v l p b a h, ih, List.nil_append]
  simpa using haux ASPECT_RATIOS

theorem execute_errors_nil {β : Type} (env : PipelineEnv β)
    (brief : CampaignBrief β) (h : AlwaysSucceeds env) :
    (execute env brief).1.errors = [] := by
  show ((brief.products.map
      (processProduct env (briefView brief) (resolveLogo env brief))).map
        StepAcc.errors).flatten = []
  have haux : ∀ ps : List Product,
      ((ps.map (processProduct env (briefView brief) (resolveLogo env brief))).map
        StepAcc.errors).flatten = [] := by
    intro ps
    induction ps with
    | nil => rfl
    | cons p rest ih =>
      simp only [List.map_cons, List.flatten_cons,
        processProduct_errors_nil env (briefView brief) (resolveLogo env brief) p h, ih,
        List.nil_append]
  exact haux _

/-- C1: the summary of every run satisfies
`totalAssets = P × R`, `successCount = assets.length`,
`errorCount = errors.length`, and `successCount + errorCount ≤ totalAssets`
(in the model the sum is exactly `totalAssets`); when every provider and
composition call succeeds, `successCount = P × R` and `errorCount = 0`. -/
theorem c1_summary {β : Type} (env : PipelineEnv β) (brief : CampaignBrief β) :
    (execute env brief).1.summary.totalAssets
        = brief.products.length * ASPECT_RATIOS.length ∧
    (execute env brief).1.summary.successCount = (execute env brief).1.assets.length ∧
    (execute env brief).1.summary.errorCount = (execute env brief).1.errors.length ∧
    (execute env brief).1.summary.successCount + (execute env brief).1.summary.errorCount
        ≤ (execute env brief).1.summary.totalAssets ∧
    (AlwaysSucceeds env →
      (execute env brief).1.summary.successCount
          = brief.products.length * ASPECT_RATIOS.length ∧
      (execute env brief).1.summary.errorCount = 0) := by
  have hc : (execute env brief).1.assets.length + (execute env brief).1.errors.length
      = brief.products.length * ASPECT_RATIOS.length :=
    products_counts_aux env (briefView brief) (resolveLogo env brief) brief.products
  refine ⟨rfl, rfl, rfl, le_of_eq hc, fun h => ?_⟩
  have he : (execute env brief).1.errors = [] := execute_errors_nil env brief h
  constructor
  · have h1 : (execute env brief).1.summary.successCount
        = (execute env brief).1.assets.length := rfl
    have h2 : (execute env brief).1.errors.length = 0 := by rw [he]; rfl
    omega
  · show (execute env brief).1.errors.length = 0
    rw [he]; rfl

/-- C1 witness: the all-success run of the demo brief. -/
theorem c1_summary_witness :
    AlwaysSucceeds demoEnv ∧
    ((execute demoEnv demoBrief).1.summary.successCount
        = demoBrief.products.length * ASPECT_RATIOS.length ∧
      (execute demoEnv demoBrief).1.summary.errorCount = 0) :=
  have hok : AlwaysSucceeds demoEnv :=
    ⟨fun _ => rfl, fun _ _ _ _ _ => rfl, fun _ _ _ => rfl, fun _ _ _ => rfl,
      fun _ _ => rfl⟩
  ⟨hok, (c1_summary demoEnv demoBrief).2.2.2.2 hok⟩

theorem execute_events_eq {β : Type} (env : PipelineEnv β) (brief : CampaignBrief β) :
    (execute env brief).2
      = ((brief.products.map
            (processProduct env (briefView brief) (resolveLogo env brief))).map
          StepAcc.events).flatten
        ++ [mkEvent EventType.complete brief.campaignId
              ("Campaign generation complete. Generated "
                ++ toString (execute env brief).1.assets.length
                ++ " assets in " ++ fmtDurationSecs env.duration ++ "s")] := rfl

theorem execute_assets_eq {β : Type} (env : PipelineEnv β) (brief : CampaignBrief β) :
    (execute env brief).1.assets
      = ((brief.products.map
            (processProduct env (briefView brief) (resolveLogo env brief))).map
          StepAcc.assets).flatten := rfl

theorem execute_errors_eq {β : Type} (env : PipelineEnv β) (brief : CampaignBrief β) :
    (execute env brief).1.errors
      = ((brief.products.map
            (processProduct env (briefView brief) (resolveLogo env brief))).map
          StepAcc.errors).flatten := rfl

theorem processRatio_no_start {β : Type} (env : PipelineEnv β) (v : BriefView)
    (l : Option β) (p : Product) (b : β) (ar : AspectRatio) :
    ∀ ev ∈ (processRatio env v l p b ar).events, ev.type ≠ EventType.start := by
  intro ev hev
  unfold processRatio at hev
  cases h : ratioStep env v l p b ar with
  | ok a =>
    rw [h] at hev
    simp only [List.mem_cons, List.mem_singleton, List.not_mem_nil] at hev
    rcases hev with rfl | rfl | hc
    · simp [mkEvent]
    · simp [mkEvent]
    · cases hc
  | error e =>
    rw [h] at hev
    simp only [List.mem_cons, List.mem_singleton, List.not_mem_nil] at hev
    rcases hev with rfl | rfl | hc
    · simp [mkEvent]
    · simp [mkEvent]
    · cases hc

theorem acquireBase_no_start {β : Type} (env : PipelineEnv β) (v : BriefView)
    (p : Product) :
    ∀ ev ∈ (acquireBase env v p).1, ev.type ≠ EventType.start := by
  intro ev hev
  unfold acquireBase at hev
  cases hpe : p.existingAssets with
  | none =>
    rw [hpe] at hev
    simp only [List.mem_singleton] at hev
    subst hev
    simp [mkEvent]
  | some l =>
    cases l with
    | nil =>
      rw [hpe] at hev
      simp only [List.mem_singleton] at hev
      subst hev
      simp [mkEvent]
    | cons a rest =>
      rw [hpe] at hev
      cases hev

theorem processProduct_no_start {β : Type} (env : PipelineEnv β) (v : BriefView)
    (l : Option β) (p : Product) :
    ∀ ev ∈ (processProduct env v l p).events, ev.type ≠ EventType.start := by
  intro ev hev
  simp only [processProduct] at hev
  cases hb : (acquireBase env v p).2 with
  | ok b =>
    rw [hb] at hev
    rcases List.mem_append.1 hev with h | h
    · exact acquireBase_no_start env v p ev h
    · obtain ⟨lst, hlst, hevl⟩ := List.mem_flatten.1 h
      obtain ⟨st, hst, rfl⟩ := List.mem_map.1 hlst
      obtain ⟨ar, _, rfl⟩ := List.mem_map.1 hst
      exact processRatio_no_start env v l p b ar ev hevl
  | error e =>
    rw [hb] at hev
    rcases List.mem_append.1 hev with h | h
    · exact acquireBase_no_start env v p ev h
    · simp only [List.mem_singleton] at h
      subst h
      simp [mkEvent]

/-- C4 (corrected): `execute` emits no `start` event at all — every event it
emits has type `progress`, `error` or `complete`, so in particular its first
event is never of type `start`. -/
theorem c4_no_start_event {β : Type} (env : PipelineEnv β)
    (brief : CampaignBrief β) :
    ∀ ev ∈ (execute env brief).2, ev.type ≠ EventType.start := by
  intro ev hev
  rw [execute_events_eq] at hev
  rcases List.mem_append.1 hev with h | h
  · obtain ⟨lst, hlst, hevl⟩ := List.mem_flatten.1 h
    obtain ⟨st, hst, rfl⟩ := List.mem_map.1 hlst
    obtain ⟨q, _, rfl⟩ := List.mem_map.1 hst
    exact processProduct_no_start env (briefView brief) (resolveLogo env brief) q ev hevl
  · simp only [List.mem_singleton] at h
    subst h
    simp [mkEvent]

/-- C4 witness: the terminal event of the demo run is emitted and is not a
`start` event. -/
theorem c4_no_start_event_witness :
    mkEvent EventType.complete "camp"
        "Campaign generation complete. Generated 6 assets in 0.0s"
      ∈ (execute demoEnv demoBrief).2 ∧
    (mkEvent EventType.complete "camp"
        "Campaign generation complete. Generated 6 assets in 0.0s").type
      ≠ EventType.start :=
  ⟨by decide,
    c4_no_start_event demoEnv demoBrief
      (mkEvent EventType.complete "camp"
        "Campaign generation complete. Generated 6 assets in 0.0s")
      (by decide)⟩

/-- C4 counterexample: on the demo run the first emitted event has type
`progress`, not `start` — work (the provider call announcement) begins with
no preceding `start` event. -/
theorem c4_counterexample :
    ((execute demoEnv demoBrief).2.map (fun ev => ev.type)).head?
        = some EventType.progress ∧
    EventType.progress ≠ EventType.start := by
  refine ⟨by decide, by decide⟩

theorem flatten_filter_key {ι α K : Type} [DecidableEq K]
    (xs : List ι) (f : ι → List α) (key : α → K) (pk : ι → K)
    (hnd : (xs.map pk).Nodup)
    (htag : ∀ x ∈ xs, ∀ a ∈ f x, key a = pk x) :
    ∀ x ∈ xs, ((xs.map f).flatten).filter (fun a => decide (key a = pk x)) = f x := by
  induction xs with
  | nil => intro x hx; cases hx
  | cons y ys ih =>
    intro x hx
    simp only [List.map_cons, List.flatten_cons, List.filter_append]
    rcases List.mem_cons.1 hx with rfl | hx2
    · have h1 : (f x).filter (fun a => decide (key a = pk x)) = f x :=
        List.filter_eq_self.2 (fun a ha =>
          by simp [htag x (List.mem_cons_self _ _) a ha])
      have h2 : ((ys.map f).flatten).filter (fun a => decide (key a = pk x)) = [] := by
        apply List.filter_eq_nil_iff.2
        intro a ha
        obtain ⟨lst, hlst, hal⟩ := List.mem_flatten.1 ha
        obtain ⟨z, hz, rfl⟩ := List.mem_map.1 hlst
        have htz := htag z (List.mem_cons_of_mem _ hz) a hal
        have hne : pk z ≠ pk x := by
          intro he
          exact (List.nodup_cons.1 hnd).1 (he ▸ List.mem_map_of_mem pk hz)
        simp [htz, hne]
      rw [h1, h2]
      exact List.append_nil _
    · have hyne : pk y ≠ pk x := by
        intro he
        exact (List.nodup_cons.1 hnd).1 (he ▸ List.mem_map_of_mem pk hx2)
      have h1 : (f y).filter (fun a => decide (key a = pk x)) = [] := by
        apply List.filter_eq_nil_iff.2
        intro a ha
        have hty := htag y (List.mem_cons_self _ _) a ha
        simp [hty, hyne]
      rw [h1, List.nil_append]
      exact ih (List.nodup_cons.1 hnd).2
        (fun z hz => htag z (List.mem_cons_of_mem _ hz)) x hx2

theorem ratioStep_ok_fields {β : Type} (env : PipelineEnv β) (v : BriefView)
    (l : Option β) (p : Product) (b : β) (ar : AspectRatio)
    (a : GeneratedAsset) (h : ratioStep env v l p b ar = Except.ok a) :
    a.productId = p.id ∧ a.aspectRatio = ar.label := by
  unfold ratioStep at h
  cases hres : env.ops.resizeImage b ar.width ar.height with
  | error e => rw [hres] at h; simp at h
  | ok resized =>
    rw [hres] at h
    simp only [] at h
    by_cases hai : env.useAIText = true
    · rw [if_pos hai] at h
      simp only [] at h
      cases hup : env.provider.upload resized
          (generateAssetFilenameD v.campaignId p.id ar.label env.now) "image/png" with
      | error e => rw [hup] at h; simp at h
      | ok fp =>
        rw [hup] at h
        simp only [Except.ok.injEq] at h
        subst h
        exact ⟨rfl, rfl⟩
    · rw [if_neg hai] at h
      cases hov : env.ops.addTextOverlay resized
          { text := v.message
            fontSize := ar.width / 20
            logo := l
            logoPosition := logoPositionFor ar.label
            brandColors := overlayBrandColorsOf v.primaryColor v.secondaryColor v.hasBrandAssets } with
      | error e => rw [hov] at h; simp at h
      | ok fin =>
        rw [hov] at h
        simp only [] at h
        cases hup : env.provider.upload fin
            (generateAssetFilenameD v.campaignId p.id ar.label env.now) "image/png" with
        | error e => rw [hup] at h; simp at h
        | ok fp =>
          rw [hup] at h
          simp only [Except.ok.injEq] at h
          subst h
          exact ⟨rfl, rfl⟩

theorem processRatio_assets_tag {β : Type} (env : PipelineEnv β) (v : BriefView)
    (l : Option β) (p : Product) (b : β) (ar : AspectRatio) :
    ∀ a ∈ (processRatio env v l p b ar).assets,
      a.productId = p.id ∧ a.aspectRatio = ar.label := by
  intro a ha
  unfold processRatio at ha
  cases h : ratioStep env v l p b ar with
  | ok x =>
    rw [h] at ha
    simp only [List.mem_singleton] at ha
    subst ha
    exact ratioStep_ok_fields env v l p b ar a h
  | error e =>
    rw [h] at ha
    simp at ha

theorem processRatio_errors_tag {β : Type} (env : PipelineEnv β) (v : BriefView)
    (l : Option β) (p : Product) (b : β) (ar : AspectRatio) :
    ∀ er ∈ (processRatio env v l p b ar).errors,
      er.productId = p.id ∧ er.aspectRatio = ar.label := by
  intro er her
  unfold processRatio at her
  cases h : ratioStep env v l p b ar with
  | ok x => rw [h] at her; simp at her
  | error e =>
    rw [h] at her
    simp only [List.mem_singleton] at her
    subst her
    exact ⟨rfl, rfl⟩

theorem processRatio_events_tag {β : Type} (env : PipelineEnv β) (v : BriefView)
    (l : Option β) (p : Product) (b : β) (ar : AspectRatio) :
    ∀ ev ∈ (processRatio env v l p b ar).events,
      ev.productId = some p.id ∧ ev.aspectRatio = some ar.label := by
  intro ev hev
  unfold processRatio at hev
  cases h : ratioStep env v l p b ar with
  | ok x =>
    rw [h] at hev
    simp only [List.mem_cons, List.mem_singleton, List.not_mem_nil, or_false] at hev
    rcases hev with rfl | rfl
    · exact ⟨rfl, rfl⟩
    · exact ⟨rfl, rfl⟩
  | error e =>
    rw [h] at hev
    simp only [List.mem_cons, List.mem_singleton, List.not_mem_nil, or_false] at hev
    rcases hev with rfl | rfl
    · exact ⟨rfl, rfl⟩
    · exact ⟨rfl, rfl⟩

theorem acquireBase_events_tag {β : Type} (env : PipelineEnv β) (v : BriefView)
    (p : Product) :
    ∀ ev ∈ (acquireBase env v p).1,
      ev.productId = some p.id ∧ ev.aspectRatio = none
        ∧ ev.type = EventType.progress := by
  intro ev hev
  unfold acquireBase at hev
  cases hpe : p.existingAssets with
  | none =>
    rw [hpe] at hev
    simp only [List.mem_singleton] at hev
    subst hev
    exact ⟨rfl, rfl, rfl⟩
  | some lst =>
    cases lst with
    | nil =>
      rw [hpe] at hev
      simp only [List.mem_singleton] at hev
      subst hev
      exact ⟨rfl, rfl, rfl⟩
    | cons a rest =>
      rw [hpe] at hev
      cases hev

theorem processProduct_assets_tag {β : Type} (env : PipelineEnv β) (v : BriefView)
    (l : Option β) (p : Product) :
    ∀ a ∈ (processProduct env v l p).assets, a.productId = p.id := by
  intro a ha
  simp only [processProduct] at ha
  cases hb : (acquireBase env v p).2 with
  | ok b =>
    rw [hb] at ha
    obtain ⟨lst, hlst, hal⟩ := List.mem_flatten.1 ha
    obtain ⟨st, hst, rfl⟩ := List.mem_map.1 hlst
    obtain ⟨ar, _, rfl⟩ := List.mem_map.1 hst
    exact (processRatio_assets_tag env v l p b ar a hal).1
  | error e =>
    rw [hb] at ha
    simp at ha

theorem processProduct_errors_tag {β : Type} (env : PipelineEnv β) (v : BriefView)
    (l : Option β) (p : Product) :
    ∀ er ∈ (processProduct env v l p).errors, er.productId = p.id := by
  intro er her
  simp only [processProduct] at her
  cases hb : (acquireBase env v p).2 with
  | ok b =>
    rw [hb] at her
    obtain ⟨lst, hlst, hal⟩ := List.mem_flatten.1 her
    obtain ⟨st, hst, rfl⟩ := List.mem_map.1 hlst
    obtain ⟨ar, _, rfl⟩ := List.mem_map.1 hst
    exact (processRatio_errors_tag env v l p b ar er hal).1
  | error e =>
    rw [hb] at her
    obtain ⟨ar, _, rfl⟩ := List.mem_map.1 her
    rfl

theorem processProduct_events_tag {β : Type} (env : PipelineEnv β) (v : BriefView)
    (l : Option β) (p : Product) :
    ∀ ev ∈ (processProduct env v l p).events, ev.productId = some p.id := by
  intro ev hev
  simp only [processProduct] at hev
  cases hb : (acquireBase env v p).2 with
  | ok b =>
    rw [hb] at hev
    rcases List.mem_append.1 hev with h | h
    · exact (acquireBase_events_tag env v p ev h).1
    · obtain ⟨lst, hlst, hal⟩ := List.mem_flatten.1 h
      obtain ⟨st, hst, rfl⟩ := List.mem_map.1 hlst
      obtain ⟨ar, _, rfl⟩ := List.mem_map.1 hst
      exact (processRatio_events_tag env v l p b ar ev hal).1
  | error e =>
    rw [hb] at hev
    rcases List.mem_append.1 hev with h | h
    · exact (acquireBase_events_tag env v p ev h).1
    · simp only [List.mem_singleton] at h
      subst h
      rfl

theorem execute_assets_eq2 {β : Type} (env : PipelineEnv β) (brief : CampaignBrief β) :
    (execute env brief).1.assets
      = (brief.products.map (fun q =>
          (processProduct env (briefView brief) (resolveLogo env brief) q).assets)).flatten := by
  rw [execute_assets_eq, List.map_map]
  rfl

theorem execute_errors_eq2 {β : Type} (env : PipelineEnv β) (brief : CampaignBrief β) :
    (execute env brief).1.errors
      = (brief.products.map (fun q =>
          (processProduct env (briefView brief) (resolveLogo env brief) q).errors)).flatten := by
  rw [execute_errors_eq, List.map_map]
  rfl

theorem execute_events_eq2 {β : Type} (env : PipelineEnv β) (brief : CampaignBrief β) :
    (execute env brief).2
      = (brief.products.map (fun q =>
          (processProduct env (briefView brief) (resolveLogo env brief) q).events)).flatten
        ++ [mkEvent EventType.complete brief.campaignId
              ("Campaign generation complete. Generated "
                ++ toString (execute env brief).1.assets.length
                ++ " assets in " ++ fmtDurationSecs env.duration ++ "s")] := by
  rw [execute_events_eq, List.map_map]
  rfl

theorem products_some_id_nodup {β : Type} (brief : CampaignBrief β)
    (hnodup : (brief.products.map Product.id).Nodup) :
    ((brief.products.map fun q => some q.id : List (Option String))).Nodup := by
  have h2 := hnodup.map (Option.some_injective String)
  rw [List.map_map] at h2
  exact h2

theorem filter_err_pid_split (l : List ProgressEvent) (pid : String) :
    l.filter (fun ev =>
        decide (ev.type = EventType.error) && decide (ev.productId = some pid))
      = (l.filter (fun ev => decide (ev.productId = some pid))).filter
          (fun ev => decide (ev.type = EventType.error)) :=
  (List.filter_filter _ _).symm

theorem filter_asp_pid_split (l : List ProgressEvent) (pid : String) :
    l.filter (fun ev =>
        decide (ev.aspectRatio ≠ none) && decide (ev.productId = some pid))
      = (l.filter (fun ev => decide (ev.productId = some pid))).filter
          (fun ev => decide (ev.aspectRatio ≠ none)) :=
  (List.filter_filter _ _).symm

theorem filter_pid_label_split (l : List PipeError) (pid lab : String) :
    l.filter (fun er =>
        decide (er.productId = pid) && decide (er.aspectRatio = lab))
      = (l.filter (fun er => decide (er.productId = pid))).filter
          (fun er => decide (er.aspectRatio = lab)) := by
  rw [List.filter_filter]
  apply List.filter_congr
  intro er _
  rw [Bool.and_comm]

theorem execute_filter_assets {β : Type} (env : PipelineEnv β)
    (brief : CampaignBrief β) (p : Product) (hmem : p ∈ brief.products)
    (hnodup : (brief.products.map Product.id).Nodup) :
    (execute env brief).1.assets.filter (fun a => decide (a.productId = p.id))
      = (processProduct env (briefView brief) (resolveLogo env brief) p).assets := by
  rw [execute_assets_eq2]
  exact flatten_filter_key brief.products
    (fun q => (processProduct env (briefView brief) (resolveLogo env brief) q).assets)
    GeneratedAsset.productId Product.id hnodup
    (fun q _ => processProduct_assets_tag env (briefView brief) (resolveLogo env brief) q)
    p hmem

theorem execute_filter_errors {β : Type} (env : PipelineEnv β)
    (brief : CampaignBrief β) (p : Product) (hmem : p ∈ brief.products)
    (hnodup : (brief.products.map Product.id).Nodup) :
    (execute env brief).1.errors.filter (fun er => decide (er.productId = p.id))
      = (processProduct env (briefView brief) (resolveLogo env brief) p).errors := by
  rw [execute_errors_eq2]
  exact flatten_filter_key brief.products
    (fun q => (processProduct env (briefView brief) (resolveLogo env brief) q).errors)
    PipeError.productId Product.id hnodup
    (fun q _ => processProduct_errors_tag env (briefView brief) (resolveLogo env brief) q)
    p hmem

theorem flatten_filter_events {β : Type} (env : PipelineEnv β)
    (brief : CampaignBrief β) (p : Product) (hmem : p ∈ brief.products)
    (hnodup : (brief.products.map Product.id).Nodup) :
    ((brief.products.map (fun q =>
        (processProduct env (briefView brief) (resolveLogo env brief) q).events)).flatten).filter
      (fun ev => decide (ev.productId = some p.id))
      = (processProduct env (briefView brief) (resolveLogo env brief) p).events :=
  flatten_filter_key brief.products
    (fun q => (processProduct env (briefView brief) (resolveLogo env brief) q).events)
    ProgressEvent.productId (fun q => some q.id) (products_some_id_nodup brief hnodup)
    (fun q _ => processProduct_events_tag env (briefView brief) (resolveLogo env brief) q)
    p hmem

/-- C2: when base-image acquisition fails for a member product of a brief
with pairwise-distinct product ids, the run records exactly one error entry
per configured aspect ratio for that product (each referencing the
acquisition failure), produces no asset for it, emits exactly one error
event for it, emits no aspect-ratio-scoped event for it (the per-ratio loop
is skipped), and every product's assets and errors in the result are exactly
its own contribution (other products are unaffected). -/
theorem c2_acquisition_failure {β : Type} (env : PipelineEnv β)
    (brief : CampaignBrief β) (p : Product) (e : String)
    (hmem : p ∈ brief.products)
    (hnodup : (brief.products.map Product.id).Nodup)
    (hfail : (acquireBase env (briefView brief) p).2 = Except.error e) :
    (execute env brief).1.errors.filter (fun er => decide (er.productId = p.id))
        = ASPECT_RATIOS.map (fun ar =>
            ⟨p.id, ar.label, productFailureMsg p.name e⟩) ∧
    (execute env brief).1.assets.filter (fun a => decide (a.productId = p.id)) = [] ∧
    ((execute env brief).2.filter (fun ev =>
        decide (ev.type = EventType.error)
          && decide (ev.productId = some p.id))).length = 1 ∧
    (execute env brief).2.filter (fun ev =>
        decide (ev.aspectRatio ≠ none)
          && decide (ev.productId = some p.id)) = [] ∧
    ∀ q ∈ brief.products,
      (execute env brief).1.assets.filter (fun a => decide (a.productId = q.id))
          = (processProduct env (briefView brief) (resolveLogo env brief) q).assets ∧
      (execute env brief).1.errors.filter (fun er => decide (er.productId = q.id))
          = (processProduct env (briefView brief) (resolveLogo env brief) q).errors := by
  have hassets :
      (processProduct env (briefView brief) (resolveLogo env brief) p).assets = [] := by
    simp only [processProduct, hfail]
  have herrors :
      (processProduct env (briefView brief) (resolveLogo env brief) p).errors
        = ASPECT_RATIOS.map (fun ar =>
            ⟨p.id, ar.label, productFailureMsg p.name e⟩) := by
    simp only [processProduct, hfail]
  have hevents :
      (processProduct env (briefView brief) (resolveLogo env brief) p).events
        = (acquireBase env (briefView brief) p).1
          ++ [{ mkEvent EventType.error (briefView brief).campaignId
                  (productFailureMsg p.name e) with
                productId := some p.id
                error := some (productFailureMsg p.name e) }] := by
    simp only [processProduct, hfail]
  refine ⟨?_, ?_, ?_, ?_, ?_⟩
  · exact (execute_filter_errors env brief p hmem hnodup).trans herrors
  · exact (execute_filter_assets env brief p hmem hnodup).trans hassets
  · rw [execute_events_eq2, List.filter_append, List.length_append]
    have hcev : ∀ cid msg : String,
        (List.filter (fun ev =>
            decide (ev.type = EventType.error) && decide (ev.productId = some p.id))
          [mkEvent EventType.complete cid msg]).length = 0 := by
      intro cid msg
      simp [mkEvent]
    rw [hcev, filter_err_pid_split,
      flatten_filter_events env brief p hmem hnodup,
      hevents, List.filter_append, List.length_append]
    have hacq : (List.filter (fun ev => decide (ev.type = EventType.error))
        (acquireBase env (briefView brief) p).1).length = 0 := by
      rw [List.length_eq_zero]
      apply List.filter_eq_nil_iff.2
      intro ev hev
      have ht := (acquireBase_events_tag env (briefView brief) p ev hev).2.2
      simp [ht]
    rw [hacq]
    simp [mkEvent]
  · rw [execute_events_eq2, List.filter_append]
    have hcev : ∀ cid msg : String,
        List.filter (fun ev =>
            decide (ev.aspectRatio ≠ none) && decide (ev.productId = some p.id))
          [mkEvent EventType.complete cid msg] = [] := by
      intro cid msg
      simp [mkEvent]
    rw [hcev, filter_asp_pid_split,
      flatten_filter_events env brief p hmem hnodup,
      hevents, List.filter_append]
    have hacq : List.filter (fun ev => decide (ev.aspectRatio ≠ none))
        (acquireBase env (briefView brief) p).1 = [] := by
      apply List.filter_eq_nil_iff.2
      intro ev hev
      have ht := (acquireBase_events_tag env (briefView brief) p ev hev).2.1
      simp [ht]
    rw [hacq]
    simp [mkEvent]
  · intro q hq
    exact ⟨execute_filter_assets env brief q hq hnodup,
      execute_filter_errors env brief q hq hnodup⟩

theorem filter_err_pid_label_split (l : List ProgressEvent) (pid lab : String) :
    l.filter (fun ev =>
        decide (ev.type = EventType.error) && decide (ev.productId = some pid)
          && decide (ev.aspectRatio = some lab))
      = ((l.filter (fun ev => decide (ev.productId = some pid))).filter
            (fun ev => decide (ev.aspectRatio = some lab))).filter
          (fun ev => decide (ev.type = EventType.error)) := by
  rw [List.filter_filter, List.filter_filter]
  apply List.filter_congr
  intro ev _
  rw [Bool.and_assoc, Bool.and_comm (decide (ev.productId = some pid)),
    ← Bool.and_assoc]

/-- C3: when the per-ratio block fails for one (member product, configured
ratio) pair of a brief with pairwise-distinct product ids, the run records
exactly one error entry scoped to that pair, emits exactly one error event
scoped to that pair, every sibling ratio whose block succeeds still has its
asset in the result, and every product's assets in the result are exactly
its own contribution (`execute` itself is a total function of its inputs
and cannot throw for per-item failures). -/
theorem c3_variant_failure {β : Type} (env : PipelineEnv β)
    (brief : CampaignBrief β) (p : Product) (b : β) (ar : AspectRatio)
    (m : String)
    (hmem : p ∈ brief.products)
    (hnodup : (brief.products.map Product.id).Nodup)
    (har : ar ∈ ASPECT_RATIOS)
    (hacq : (acquireBase env (briefView brief) p).2 = Except.ok b)
    (hfail : ratioStep env (briefView brief) (resolveLogo env brief) p b ar
      = Except.error m) :
    (execute env brief).1.errors.filter (fun er =>
        decide (er.productId = p.id) && decide (er.aspectRatio = ar.label))
      = [⟨p.id, ar.label, variantFailureMsg ar.label m⟩] ∧
    ((execute env brief).2.filter (fun ev =>
        decide (ev.type = EventType.error) && decide (ev.productId = some p.id)
          && decide (ev.aspectRatio = some ar.label))).length = 1 ∧
    (∀ ar2 ∈ ASPECT_RATIOS, ∀ a : GeneratedAsset,
        ratioStep env (briefView brief) (resolveLogo env brief) p b ar2
            = Except.ok a →
        a ∈ (execute env brief).1.assets) ∧
    ∀ q ∈ brief.products,
      (execute env brief).1.assets.filter (fun a => decide (a.productId = q.id))
        = (processProduct env (briefView brief) (resolveLogo env brief) q).assets := by
  have hperrors :
      (processProduct env (briefView brief) (resolveLogo env brief) p).errors
        = (ASPECT_RATIOS.map (fun r =>
            (processRatio env (briefView brief) (resolveLogo env brief) p b r).errors)).flatten := by
    simp only [processProduct, hacq]
    rw [List.map_map]
    rfl
  have hpevents :
      (processProduct env (briefView brief) (resolveLogo env brief) p).events
        = (acquireBase env (briefView brief) p).1
          ++ (ASPECT_RATIOS.map (fun r =>
              (processRatio env (briefView brief) (resolveLogo env brief) p b r).events)).flatten := by
    simp only [processProduct, hacq]
    rw [List.map_map]
    rfl
  have hpassets :
      (processProduct env (briefView brief) (resolveLogo env brief) p).assets
        = (ASPECT_RATIOS.map (fun r =>
            (processRatio env (briefView brief) (resolveLogo env brief) p b r).assets)).flatten := by
    simp only [processProduct, hacq]
    rw [List.map_map]
    rfl
  have hlabelE :
      ((ASPECT_RATIOS.map (fun r =>
          (processRatio env (briefView brief) (resolveLogo env brief) p b r).errors)).flatten).filter
        (fun er => decide (er.aspectRatio = ar.label))
        = (processRatio env (briefView brief) (resolveLogo env brief) p b ar).errors :=
    flatten_filter_key ASPECT_RATIOS
      (fun r => (processRatio env (briefView brief) (resolveLogo env brief) p b r).errors)
      PipeError.aspectRatio (fun r => r.label) (by decide)
      (fun r _ er her =>
        (processRatio_errors_tag env (briefView brief) (resolveLogo env brief) p b r er her).2)
      ar har
  have hlabelV :
      ((ASPECT_RATIOS.map (fun r =>
          (processRatio env (briefView brief) (resolveLogo env brief) p b r).events)).flatten).filter
        (fun ev => decide (ev.aspectRatio = some ar.label))
        = (processRatio env (briefView brief) (resolveLogo env brief) p b ar).events :=
    flatten_filter_key ASPECT_RATIOS
      (fun r => (processRatio env (briefView brief) (resolveLogo env brief) p b r).events)
      ProgressEvent.aspectRatio (fun r => some r.label) (by decide)
      (fun r _ ev hev =>
        (processRatio_events_tag env (briefView brief) (resolveLogo env brief) p b r ev hev).2)
      ar har
  have hratioErr :
      (processRatio env (briefView brief) (resolveLogo env brief) p b ar).errors
        = [⟨p.id, ar.label, variantFailureMsg ar.label m⟩] := by
    simp only [processRatio, hfail]
  have hratioEvents :
      (processRatio env (briefView brief) (resolveLogo env brief) p b ar).events
        = [{ mkEvent EventType.progress (briefView brief).campaignId
                ("Creating " ++ ar.label ++ " variant for " ++ p.name ++ "...") with
              productId := some p.id
              aspectRatio := some ar.label },
            { mkEvent EventType.error (briefView brief).campaignId
                (variantFailureMsg ar.label m) with
              productId := some p.id
              aspectRatio := some ar.label
              error := some (variantFailureMsg ar.label m) }] := by
    simp only [processRatio, hfail]
  refine ⟨?_, ?_, ?_, ?_⟩
  · rw [filter_pid_label_split,
      execute_filter_errors env brief p hmem hnodup,
      hperrors, hlabelE, hratioErr]
  · rw [execute_events_eq2, List.filter_append, List.length_append]
    have hcev : ∀ cid msg : String,
        (List.filter (fun ev =>
            decide (ev.type = EventType.error) && decide (ev.productId = some p.id)
              && decide (ev.aspectRatio = some ar.label))
          [mkEvent EventType.complete cid msg]).length = 0 := by
      intro cid msg
      simp [mkEvent]
    rw [hcev, filter_err_pid_label_split,
      flatten_filter_events env brief p hmem hnodup,
      hpevents, List.filter_append]
    have hacqlab : List.filter (fun ev => decide (ev.aspectRatio = some ar.label))
        (acquireBase env (briefView brief) p).1 = [] := by
      apply List.filter_eq_nil_iff.2
      intro ev hev
      have ht := (acquireBase_events_tag env (briefView brief) p ev hev).2.1
      simp [ht]
    rw [hacqlab, List.nil_append, hlabelV, hratioEvents]
    simp [mkEvent]
  · intro ar2 har2 a hok
    rw [execute_assets_eq2]
    apply List.mem_flatten.2
    refine ⟨(processProduct env (briefView brief) (resolveLogo env brief) p).assets,
      List.mem_map_of_mem _ hmem, ?_⟩
    rw [hpassets]
    apply List.mem_flatten.2
    refine ⟨(processRatio env (briefView brief) (resolveLogo env brief) p b ar2).assets,
      List.mem_map_of_mem _ har2, ?_⟩
    have hone : (processRatio env (briefView brief) (resolveLogo env brief) p b ar2).assets
        = [a] := by
      simp only [processRatio, hok]
    rw [hone]
    exact List.mem_singleton.2 rfl
  · intro q hq
    exact execute_filter_assets env brief q hq hnodup

theorem briefView_stripLogo {β : Type} (brief : CampaignBrief β) :
    briefView (stripLogo brief) = briefView brief := by
  cases hba : brief.brandAssets with
  | none => simp [briefView, stripLogo, hba]
  | some ba => simp [briefView, stripLogo, hba]

theorem resolveLogo_stripLogo_none {β : Type} (env : PipelineEnv β)
    (brief : CampaignBrief β) :
    resolveLogo env (stripLogo brief) = none := by
  cases hba : brief.brandAssets with
  | none => simp [resolveLogo, stripLogo, hba]
  | some ba => simp [resolveLogo, stripLogo, hba, truthyStr]

theorem resolveLogo_none_of_fails {β : Type} (env : PipelineEnv β)
    (brief : CampaignBrief β) (h : LogoAcquisitionFails env brief) :
    resolveLogo env brief = none := by
  obtain ⟨ba, hba, hcase⟩ := h
  rcases hcase with ⟨buf, hbuf, hup⟩ | ⟨hnone, path, hpath, hdl⟩
  · cases hu : env.provider.upload buf ("logos/" ++ brief.campaignId ++ "-logo.png")
        "image/png" with
    | ok s =>
      rw [hu] at hup
      simp [Except.isOk, Except.toBool] at hup
    | error e =>
      simp [resolveLogo, hba, hbuf, hu]
  · cases hd : env.provider.download path with
    | ok s =>
      rw [hd] at hdl
      simp [Except.isOk, Except.toBool] at hdl
    | error e =>
      simp [resolveLogo, hba, hnone, hpath, hd]

/-- C10: a failed upload of an attached brand logo, or a failed download of
a brand-logo path, is silently absorbed: the run resolves no logo and the
entire outcome — errors, events, summary, the whole `PipelineResult` —
equals that of the same brief with the logo removed (brand colors kept); in
particular the failure adds no error entry and emits no error event. -/
theorem c10_logo_failure_absorbed {β : Type} (env : PipelineEnv β)
    (brief : CampaignBrief β) (hfail : LogoAcquisitionFails env brief) :
    resolveLogo env brief = none ∧
    execute env brief = execute env (stripLogo brief) ∧
    (execute env brief).1.errors = (execute env (stripLogo brief)).1.errors ∧
    (execute env brief).2 = (execute env (stripLogo brief)).2 ∧
    (execute env brief).1.summary = (execute env (stripLogo brief)).1.summary := by
  have h1 : resolveLogo env brief = none := resolveLogo_none_of_fails env brief hfail
  have h2 : resolveLogo env (stripLogo brief) = none :=
    resolveLogo_stripLogo_none env brief
  have hv : briefView (stripLogo brief) = briefView brief := briefView_stripLogo brief
  have hmain : execute env brief = execute env (stripLogo brief) := by
    simp only [execute, h1, h2, hv]
    rfl
  exact ⟨h1, hmain, congrArg (fun r => r.1.errors) hmain,
    congrArg Prod.snd hmain, congrArg (fun r => r.1.summary) hmain⟩

/-- C10 witness: the demo brief with a raw logo payload whose upload fails,
run against the otherwise-successful provider. -/
theorem c10_logo_failure_absorbed_witness :
    LogoAcquisitionFails demoEnvFailLogo demoBriefLogo ∧
    (resolveLogo demoEnvFailLogo demoBriefLogo = none ∧
      (execute demoEnvFailLogo demoBriefLogo).1.errors
        = (execute demoEnvFailLogo (stripLogo demoBriefLogo)).1.errors ∧
      (execute demoEnvFailLogo demoBriefLogo).1.summary
        = (execute demoEnvFailLogo (stripLogo demoBriefLogo)).1.summary) :=
  have hf : LogoAcquisitionFails demoEnvFailLogo demoBriefLogo :=
    ⟨⟨some (), none, some "#112233", none⟩, rfl, Or.inl ⟨(), rfl, by decide⟩⟩
  have h := c10_logo_failure_absorbed demoEnvFailLogo demoBriefLogo hf
  ⟨hf, h.1, h.2.2.1, h.2.2.2.2⟩

/-- C2 witness: the demo run in which image generation fails for the second
product only. -/
theorem c2_acquisition_failure_witness :
    demoProductTwo ∈ demoBrief.products ∧
    (demoBrief.products.map Product.id).Nodup ∧
    (acquireBase demoEnvFailGen (briefView demoBrief) demoProductTwo).2
      = Except.error "boom" ∧
    (execute demoEnvFailGen demoBrief).1.errors.filter
        (fun er => decide (er.productId = demoProductTwo.id))
      = ASPECT_RATIOS.map (fun ar =>
          ⟨demoProductTwo.id, ar.label, productFailureMsg demoProductTwo.name "boom"⟩) :=
  ⟨by decide, by decide, rfl,
    (c2_acquisition_failure demoEnvFailGen demoBrief demoProductTwo "boom"
      (by decide) (by decide) rfl).1⟩

/-- C3 witness: the demo run in which the overlay fails exactly for the
second configured ratio of each product; instantiated at the first
product. -/
theorem c3_variant_failure_witness :
    demoProductOne ∈ demoBrief.products ∧
    (demoBrief.products.map Product.id).Nodup ∧
    demoRatio916 ∈ ASPECT_RATIOS ∧
    (acquireBase demoEnvFailOverlay (briefView demoBrief) demoProductOne).2
      = Except.ok () ∧
    ratioStep demoEnvFailOverlay (briefView demoBrief)
        (resolveLogo demoEnvFailOverlay demoBrief) demoProductOne () demoRatio916
      = Except.error "overlay down" ∧
    (execute demoEnvFailOverlay demoBrief).1.errors.filter (fun er =>
        decide (er.productId = demoProductOne.id)
          && decide (er.aspectRatio = demoRatio916.label))
      = [⟨demoProductOne.id, demoRatio916.label,
          variantFailureMsg demoRatio916.label "overlay down"⟩] :=
  ⟨by decide, by decide, by decide, rfl, rfl,
    (c3_variant_failure demoEnvFailOverlay demoBrief demoProductOne () demoRatio916
      "overlay down" (by decide) (by decide) (by decide) rfl rfl).1⟩

end CreativeBoost
